import Mathlib

/-!
Shallow embedding of the `automations-renderer` service (`src/server.js`)
and proofs about it.

Conventions of the embedding:
* JavaScript numbers are modelled as exact rationals extended with the
  special values `NaN`, `Infinity` and `-Infinity` (`JSNum`).  The
  number-to-string conversion follows ECMA-262's thresholds: plain decimal
  notation for magnitudes in `[1e-6, 1e21)` (and for zero), exponential
  notation (`d.dddde±k`) outside that range.  The digits rendered are
  those of the exact rational (fuel-bounded for non-terminating
  expansions); binary floating-point rounding to the double's shortest
  round-trip form is not modelled.
* Effectful steps (Playwright calls, the filesystem, the spawned process)
  are driven by explicit "world" records that fix the outcome of each
  step; the handlers become pure functions from a world and a request to
  a response together with a resource-accounting state.
-/

namespace Renderer

/-- JavaScript number: a finite rational or one of the special values. -/
inductive JSNum where
  | fin (q : ℚ)
  | nan
  | posInf
  | negInf
deriving DecidableEq, Repr

/-- JavaScript value, restricted to the shapes a JSON request field can take
(plus `undefined` for absent fields). -/
inductive JSVal where
  | num (n : JSNum)
  | str (s : String)
  | boolean (b : Bool)
  | nullV
  | undef
deriving DecidableEq, Repr

/-- Semantics of `Number.isFinite`. -/
def JSNum.isFinite : JSNum → Bool
  | .fin _ => true
  | _ => false

/-- JavaScript `<` on numbers: any comparison involving `NaN` is false. -/
def JSNum.jsLt : JSNum → JSNum → Bool
  | .nan, _ => false
  | _, .nan => false
  | .fin a, .fin b => a < b
  | .negInf, .negInf => false
  | .negInf, _ => true
  | _, .negInf => false
  | .posInf, _ => false
  | _, .posInf => true

/-- JavaScript `<=` on numbers: any comparison involving `NaN` is false. -/
def JSNum.jsLe : JSNum → JSNum → Bool
  | .nan, _ => false
  | _, .nan => false
  | .fin a, .fin b => a ≤ b
  | .negInf, _ => true
  | _, .negInf => false
  | _, .posInf => true
  | .posInf, _ => false

/-- Unary minus on a JavaScript number. -/
def JSNum.neg : JSNum → JSNum
  | .fin q => .fin (-q)
  | .nan => .nan
  | .posInf => .negInf
  | .negInf => .posInf

/-- Numeric value of a most-significant-digit-first list of ASCII digit
characters (the accumulator loop of a decimal parser). -/
def digitsVal (cs : List Char) : ℕ :=
  cs.foldl (fun a c => 10 * a + (c.toNat - 48)) 0

/-- Decimal digits of a natural number, least significant first; the first
argument is fuel bounding the digit count (structural recursion keeps the
function kernel-reducible). -/
def natDigitsAux : ℕ → ℕ → List ℕ
  | 0, _ => []
  | _ + 1, 0 => []
  | fuel + 1, n => n % 10 :: natDigitsAux fuel (n / 10)

/-- Decimal digit characters of a natural number, most significant first. -/
def natDigitChars (n : ℕ) : List Char :=
  if n = 0 then ['0'] else ((natDigitsAux n n).reverse.map Nat.digitChar)

/-- Decimal rendering of a natural number. -/
def natToString (n : ℕ) : String :=
  ⟨natDigitChars n⟩

/-- Decimal rendering of an integer. -/
def intToString (i : ℤ) : String :=
  if i < 0 then "-" ++ natToString i.natAbs else natToString i.natAbs

/-- Fractional digit characters of `r / den` (with `0 ≤ r < den`), produced
by repeated multiplication by ten; the fuel bounds the number of digits and
is never exhausted for denominators whose prime factors are 2 and 5 (the
only finite-decimal rationals, hence the only values a JavaScript float can
hold exactly). -/
def fracDigitChars (den : ℕ) : ℕ → ℕ → List Char
  | 0, _ => []
  | _ + 1, 0 => []
  | fuel + 1, r => Nat.digitChar (r * 10 / den) :: fracDigitChars den fuel (r * 10 % den)

/-- Helper for mantissa rendering: drop trailing zero digits. -/
def trimTrailingZeros (cs : List Char) : List Char :=
  (cs.reverse.dropWhile (fun c => c == '0')).reverse

/-- Least `k` (within the fuel) with `den ≤ num * 10 ^ k`: the decimal
normalization shift that brings `num / den` into `[1, 10)`. -/
def leastPow : ℕ → ℕ → ℕ → ℕ
  | _, _, 0 => 0
  | num, den, fuel + 1 =>
    if den ≤ num then 0 else leastPow (num * 10) den fuel + 1

/-- Exponential rendering (`d.ddde-k`) of a positive rational below
`1e-6`, as JavaScript produces for that range: one leading significant
digit, the remaining significant digits after a decimal point (absent when
there are none), then `e-` and the decimal exponent. -/
def smallExpChars (q : ℚ) : List Char :=
  let e := leastPow q.num.toNat q.den ((natDigitsAux q.den q.den).length + 1)
  let m := q.num.toNat * 10 ^ e
  let d1 := m / q.den
  let r := m % q.den
  Nat.digitChar d1 ::
    ((if r = 0 then [] else '.' :: fracDigitChars q.den 40 r) ++
      'e' :: '-' :: natDigitChars e)

/-- Exponential rendering (`d.ddde+k`) of a rational at least `1e21`, as
JavaScript produces for that range: the leading digit of the integer part,
the remaining significant digits (trailing zeros trimmed) after a decimal
point, then `e+` and the decimal exponent. -/
def largeExpChars (q : ℚ) : List Char :=
  let ip := q.num.toNat / q.den
  let r := q.num.toNat % q.den
  match natDigitChars ip with
  | [] => []
  | d1 :: rest =>
    let mant := trimTrailingZeros
      (rest ++ (if r = 0 then [] else fracDigitChars q.den 40 r))
    d1 :: ((if mant.isEmpty then [] else '.' :: mant) ++
      'e' :: '+' :: natDigitChars rest.length)

/-- Decimal character rendering of a nonnegative rational, with
ECMA-262's notation thresholds: exponential for values at least `1e21`,
exponential for nonzero values below `1e-6`, plain decimal in between. -/
def ratToDecimalCharsNonneg (q : ℚ) : List Char :=
  if 10 ^ 21 * q.den ≤ q.num.toNat then largeExpChars q
  else if q.num.toNat ≠ 0 ∧ q.num.toNat * 10 ^ 6 < q.den then smallExpChars q
  else
    let ip := q.num.toNat / q.den
    let r := q.num.toNat % q.den
    if r = 0 then natDigitChars ip
    else natDigitChars ip ++ '.' :: fracDigitChars q.den 40 r

/-- Decimal character rendering of a rational, sign included. -/
def ratToDecimalChars (q : ℚ) : List Char :=
  if q < 0 then '-' :: ratToDecimalCharsNonneg (-q) else ratToDecimalCharsNonneg q

/-- Semantics of JavaScript `String(n)` for a number `n` (decimal
notation; see the module comment). -/
def JSNum.jsToString : JSNum → String
  | .fin q => ⟨ratToDecimalChars q⟩
  | .nan => "NaN"
  | .posInf => "Infinity"
  | .negInf => "-Infinity"

/-- Core of `parseInt(·, 10)` on a sign-stripped character list: the leading
run of decimal digits, or `NaN` when there is none. -/
def parseIntCore (cs : List Char) : JSNum :=
  let ds := cs.takeWhile Char.isDigit
  if ds.isEmpty then .nan else .fin ((digitsVal ds : ℕ) : ℚ)

/-- Semantics of JavaScript `parseInt(s, 10)` on a character list: skip
leading whitespace, read an optional sign, then the leading digit run. -/
def parseIntChars (cs : List Char) : JSNum :=
  match cs.dropWhile Char.isWhitespace with
  | [] => .nan
  | c :: rest =>
    if c = '-' then (parseIntCore rest).neg
    else if c = '+' then parseIntCore rest
    else parseIntCore (c :: rest)

/-- Semantics of JavaScript `parseInt(s, 10)` on a string. -/
def parseIntString (s : String) : JSNum :=
  parseIntChars s.toList

/-- Value of an unsigned decimal literal with integer digits `ds`,
fractional digits `fs` and decimal exponent `e`: the rational
`(I.F) * 10 ^ e`, built with `mkRat` over integer arithmetic so that it
stays kernel-reducible. -/
def decLiteralVal (ds fs : List Char) (e : ℤ) : ℚ :=
  let m : ℕ := digitsVal ds * 10 ^ fs.length + digitsVal fs
  if 0 ≤ e then mkRat (m * 10 ^ e.toNat) (10 ^ fs.length)
  else mkRat m (10 ^ fs.length * 10 ^ (-e).toNat)

/-- Parse the optional exponent part of a decimal literal; the whole
remainder must be consumed. -/
def parseExpPart (ds fs : List Char) : List Char → Option ℚ
  | [] => some (decLiteralVal ds fs 0)
  | c :: rest =>
    if c = 'e' ∨ c = 'E' then
      let (sgn, rest1) :=
        match rest with
        | '-' :: r => ((-1 : ℤ), r)
        | '+' :: r => ((1 : ℤ), r)
        | r => ((1 : ℤ), r)
      let es := rest1.takeWhile Char.isDigit
      let rest2 := rest1.dropWhile Char.isDigit
      if es.isEmpty ∨ ¬ rest2.isEmpty then none
      else some (decLiteralVal ds fs (sgn * (digitsVal es : ℕ)))
    else none

/-- Parse an unsigned decimal literal (`digits`, `digits.digits`,
`.digits`, optional exponent); `none` when the characters are not a
number literal. -/
def parseUnsignedDec (cs : List Char) : Option ℚ :=
  let ds := cs.takeWhile Char.isDigit
  let rest1 := cs.dropWhile Char.isDigit
  match rest1 with
  | '.' :: rest2 =>
    let fs := rest2.takeWhile Char.isDigit
    let rest3 := rest2.dropWhile Char.isDigit
    if ds.isEmpty ∧ fs.isEmpty then none else parseExpPart ds fs rest3
  | _ => if ds.isEmpty then none else parseExpPart ds [] rest1

/-- Unsigned part of string-to-number conversion: `Infinity` or a decimal
literal.  Hexadecimal, octal and binary literal forms are outside the
inputs this service meets and are not modelled. -/
def strToNumberUnsigned (cs : List Char) : JSNum :=
  if cs = ("Infinity").toList then .posInf
  else
    match parseUnsignedDec cs with
    | some q => .fin q
    | none => .nan

/-- Semantics of JavaScript `Number(s)` for a string: trim whitespace,
empty means zero, otherwise a signed `Infinity` or decimal literal. -/
def strToNumber (s : String) : JSNum :=
  let cs := ((s.toList.dropWhile Char.isWhitespace).reverse.dropWhile
      Char.isWhitespace).reverse
  match cs with
  | [] => .fin 0
  | c :: rest =>
    if c = '-' then (strToNumberUnsigned rest).neg
    else if c = '+' then strToNumberUnsigned rest
    else strToNumberUnsigned (c :: rest)

/-- Semantics of JavaScript `Number(v)` on a request value. -/
def toNumber : JSVal → JSNum
  | .num n => n
  | .str s => strToNumber s
  | .boolean b => .fin (if b then 1 else 0)
  | .nullV => .fin 0
  | .undef => .nan

/-- Semantics of JavaScript `String(v)` on a request value. -/
def valToString : JSVal → String
  | .num n => n.jsToString
  | .str s => s
  | .boolean b => if b then "true" else "false"
  | .nullV => "null"
  | .undef => "undefined"

/-- Semantics of JavaScript `s.startsWith(p)`: `p`'s characters lead `s`. -/
def jsStartsWith (s p : String) : Bool :=
  p.toList.isPrefixOf s.toList

/-- Semantics of JavaScript `parseInt(v, 10)` on a request value: the value
is first converted to its string form, then parsed. -/
def jsParseInt (v : JSVal) : JSNum :=
  parseIntString (valToString v)

/-- JavaScript truthiness of a request value. -/
def JSVal.truthy : JSVal → Bool
  | .num (.fin q) => q ≠ 0
  | .num .nan => false
  | .num _ => true
  | .str s => s ≠ ""
  | .boolean b => b
  | .nullV => false
  | .undef => false

/-- Embedding of `normalizeDpr` (`server.js` lines 33-37):
`const n = Number(v); if (!Number.isFinite(n) || n <= 0) return fallback;
return n;`. -/
def normalizeDpr (v : JSVal) (fallback : JSNum := .fin 1) : JSNum :=
  let n := toNumber v
  if ¬ n.isFinite ∨ n.jsLe (.fin 0) then fallback else n

/-- Embedding of `normalizeInt` (`server.js` lines 39-42):
`const n = parseInt(v, 10); return Number.isFinite(n) && n > 0 ? n :
fallback;`. -/
def normalizeInt (v : JSVal) (fallback : JSNum) : JSNum :=
  let n := jsParseInt v
  if n.isFinite ∧ (JSNum.fin 0).jsLt n then n else fallback

/-- Embedding of `normalizeFloat` (`server.js` lines 44-47):
`const n = Number(v); return Number.isFinite(n) && n > 0 ? n : fallback;`. -/
def normalizeFloat (v : JSVal) (fallback : JSNum) : JSNum :=
  let n := toNumber v
  if n.isFinite ∧ (JSNum.fin 0).jsLt n then n else fallback

/-! Process Runner (`run`, `server.js` lines 49-74).

The spawned process's observable behavior is fixed by a `ProcEvent`: it
either emits a `close` event at a given time with an exit code and the
accumulated stream contents, emits a spawn-level `error` event, or never
settles.  `run` races that event against the timeout timer. -/

/-- Decidable equality for step outcomes. -/
instance exceptDecEq {ε α : Type} [DecidableEq ε] [DecidableEq α] :
    DecidableEq (Except ε α) := fun x y =>
  match x, y with
  | .ok a, .ok b => decidable_of_iff (a = b) (by simp)
  | .ok _, .error _ => isFalse (by simp)
  | .error _, .ok _ => isFalse (by simp)
  | .error e, .error f => decidable_of_iff (e = f) (by simp)

/-- Observable behavior of the spawned process. -/
inductive ProcEvent where
  | closes (atMs : ℕ) (exitCode : ℤ) (outAcc errAcc : String)
  | spawnErr (atMs : ℕ) (msg : String)
  | runsForever
deriving DecidableEq, Repr

/-- Time at which the process itself would settle the promise, if ever. -/
def ProcEvent.settleTime : ProcEvent → Option ℕ
  | .closes t _ _ _ => some t
  | .spawnErr t _ => some t
  | .runsForever => none

/-- Outcome of a `run` invocation: the settled promise, whether `SIGKILL`
was sent, and whether `clearTimeout` ran before the promise settled. -/
structure RunOutcome where
  result : Except String (String × String)
  sigkillSent : Bool
  timerCleared : Bool
deriving DecidableEq, Repr

/-- Embedding of `run` (`server.js` lines 49-74).  The timer fires at
`timeoutMs`; a process event strictly earlier wins the race (at a tie the
timer is taken to fire first). -/
def run (cmd : String) (behavior : ProcEvent) (timeoutMs : ℕ := 120000) :
    RunOutcome :=
  match behavior with
  | .closes t exitCode outAcc errAcc =>
    if timeoutMs ≤ t then
      { result := .error (cmd ++ " timed out after " ++ natToString timeoutMs ++ "ms"),
        sigkillSent := true, timerCleared := false }
    else if exitCode = 0 then
      { result := .ok (outAcc, errAcc), sigkillSent := false, timerCleared := true }
    else
      { result := .error (cmd ++ " failed (code " ++ intToString exitCode ++ "). " ++
          (if errAcc = "" then outAcc else errAcc)),
        sigkillSent := false, timerCleared := true }
  | .spawnErr t msg =>
    if timeoutMs ≤ t then
      { result := .error (cmd ++ " timed out after " ++ natToString timeoutMs ++ "ms"),
        sigkillSent := true, timerCleared := false }
    else
      { result := .error msg, sigkillSent := false, timerCleared := true }
  | .runsForever =>
    { result := .error (cmd ++ " timed out after " ++ natToString timeoutMs ++ "ms"),
      sigkillSent := true, timerCleared := false }

/-! Page Renderer (`renderPngBuffer`, `server.js` lines 76-149). -/

/-- Data root (`process.env.DATA_ROOT || "/data"`, with the default). -/
def DATA_ROOT : String := "/data"

/-- Template root (`path.join(DATA_ROOT, "templates")`). -/
def TEMPLATES_ROOT : String := DATA_ROOT ++ "/templates"

/-- Resolved entry-document path of a template
(`path.join(path.join(TEMPLATES_ROOT, template), "index.html")`). -/
def htmlPath (template : String) : String :=
  TEMPLATES_ROOT ++ "/" ++ template ++ "/index.html"

/-- Thrown JavaScript error: a message plus the optional `code` property. -/
structure JsError where
  message : String
  code : Option String := none
deriving DecidableEq, Repr

/-- Outcomes of the effectful Playwright steps of one `renderPngBuffer`
invocation. -/
structure PageWorld where
  templateExists : Bool := true
  newContext : Except String Unit := .ok ()
  newPage : Except String Unit := .ok ()
  addInitScript : Except String Unit := .ok ()
  pageGoto : Except String Unit := .ok ()
  addStyleTag : Except String Unit := .ok ()
  fontsEvaluate : Except String Unit := .ok ()
  readyWait : Except String Unit := .ok ()
  screenshot : Except String String := .ok ("png-bytes")
  pageClose : Except String Unit := .ok ()
  contextClose : Except String Unit := .ok ()
deriving DecidableEq, Repr

/-- Resource accounting for one `renderPngBuffer` invocation: which
resources were created and whether `close` was ever called on them. -/
structure RenderState where
  contextCreated : Bool := false
  contextDpr : Option JSNum := none
  pageCreated : Bool := false
  screenshotOmitBg : Option Bool := none
  pageCloseCalled : Bool := false
  contextCloseCalled : Bool := false
deriving DecidableEq, Repr

/-- Embedding of `renderPngBuffer` (`server.js` lines 76-149).  Mirrors the
source statement by statement: template-existence check, context and page
creation, init-script injection, navigation, the optional background-hiding
style tag, the font wait, the readiness wait, the element screenshot, and —
only after a successful screenshot — the two `close` calls whose own
failures are swallowed by `.catch(() => {})`.  There is no `try`/`finally`
in the source, so a failure at any step after context creation returns with
no `close` call recorded. -/
def renderPngBuffer (w : PageWorld) (template : String) (dsf : JSVal)
    (transparent : Bool) (hideBg : Bool) : Except JsError String × RenderState :=
  if ¬ w.templateExists then
    (.error { message := "Template not found at " ++ htmlPath template,
              code := some ("TEMPLATE_NOT_FOUND") }, {})
  else
    let dpr := normalizeDpr dsf (.fin 1)
    match w.newContext with
    | .error m => (.error { message := m }, {})
    | .ok _ =>
      let s1 : RenderState := { contextCreated := true, contextDpr := some dpr }
      match w.newPage with
      | .error m => (.error { message := m }, s1)
      | .ok _ =>
        let s2 : RenderState := { s1 with pageCreated := true }
        match w.addInitScript with
        | .error m => (.error { message := m }, s2)
        | .ok _ =>
        match w.pageGoto with
        | .error m => (.error { message := m }, s2)
        | .ok _ =>
        match (if hideBg then w.addStyleTag else .ok ()) with
        | .error m => (.error { message := m }, s2)
        | .ok _ =>
        match w.fontsEvaluate with
        | .error m => (.error { message := m }, s2)
        | .ok _ =>
        match w.readyWait with
        | .error m => (.error { message := m }, s2)
        | .ok _ =>
        match w.screenshot with
        | .error m => (.error { message := m }, s2)
        | .ok png =>
          (.ok png, { s2 with screenshotOmitBg := some transparent,
                              pageCloseCalled := true, contextCloseCalled := true })

/-! HTTP handlers (`server.js` lines 155-282). -/

/-- Response body: a JSON error object (`error` code plus optional
`message`) or a binary payload with its content type. -/
inductive RespBody where
  | jsonError (errCode : String) (message : Option String)
  | binary (contentType : String) (payload : String)
deriving DecidableEq, Repr

/-- HTTP response produced by a handler. -/
structure HttpResponse where
  status : ℕ
  body : RespBody
deriving DecidableEq, Repr

/-- Truthiness of the `template` body field (`if (!template)`). -/
def templateTruthy : Option String → Bool
  | none => false
  | some s => s ≠ ""

/-- Request body of `POST /render/png`, with the destructuring defaults of
`server.js` lines 158-166. -/
structure PngRequest where
  template : Option String := none
  width : ℕ := 2160
  height : ℕ := 3840
  transparent : Bool := false
  deviceScaleFactor : JSVal := .undef
deriving DecidableEq, Repr

/-- Embedding of the `POST /render/png` handler (`server.js` lines
155-190): validate `template`, call `renderPngBuffer`, and map a caught
error to status 404 exactly when its `code` is `TEMPLATE_NOT_FOUND`, with
the fixed body code `RENDER_FAILED` either way. -/
def pngHandler (w : PageWorld) (req : PngRequest) :
    HttpResponse × RenderState :=
  if ¬ templateTruthy req.template then
    ({ status := 400, body := .jsonError ("template is required") none }, {})
  else
    match renderPngBuffer w (req.template.getD ("")) req.deviceScaleFactor
        req.transparent false with
    | (.ok png, st) =>
      ({ status := 200, body := .binary ("image/png") png }, st)
    | (.error e, st) =>
      ({ status := if e.code = some ("TEMPLATE_NOT_FOUND") then 404 else 500,
         body := .jsonError ("RENDER_FAILED") (some e.message) }, st)

/-- Request body of `POST /render/video`, with the destructuring defaults
of `server.js` lines 201-208; option fields are `undef` when absent. -/
structure VideoRequest where
  template : Option String := none
  width : ℕ := 2160
  height : ℕ := 3840
  backgroundVideo : Option JSVal := none
  fps : JSVal := .undef
  durationSec : JSVal := .undef
  includeAudio : JSVal := .undef
  deviceScaleFactor : JSVal := .undef
deriving DecidableEq, Repr

/-- One recorded invocation of the Process Runner. -/
structure FfmpegCall where
  cmd : String
  args : List String
  timeoutMs : ℕ
deriving DecidableEq, Repr

/-- Resource accounting for one `POST /render/video` request.  `rmCall`
records whether `fs.rmSync` was invoked on the temporary directory and with
which `(recursive, force)` options. -/
structure VideoState where
  tmpDirCreated : Bool := false
  overlayWritten : Bool := false
  ffmpegCall : Option FfmpegCall := none
  renderState : RenderState := {}
  rmCall : Option (Bool × Bool) := none
  rmSucceeded : Bool := false
deriving DecidableEq, Repr

/-- Outcomes of the effectful steps of one `POST /render/video` request
beyond the Page Renderer's own. -/
structure VideoWorld where
  page : PageWorld := {}
  tmpDir : String := "/tmp/render-XXXXXX"
  reqId : String := "0a1b2c3d4e5f"
  writeOverlay : Except String Unit := .ok ()
  ffmpegBehavior : ProcEvent := .closes 1000 0 ("") ("")
  readOutput : Except String String := .ok ("mp4-bytes")
  rmOk : Bool := true
deriving DecidableEq, Repr

/-- Overlay artifact path (`path.join(tmpDir, "overlay-" + id + ".png")`). -/
def overlayPathOf (w : VideoWorld) : String :=
  w.tmpDir ++ "/overlay-" ++ w.reqId ++ ".png"

/-- Output video path (`path.join(tmpDir, "out-" + id + ".mp4")`). -/
def outPathOf (w : VideoWorld) : String :=
  w.tmpDir ++ "/out-" ++ w.reqId ++ ".mp4"

/-- Semantics of JavaScript `Array.prototype.join(sep)` on strings. -/
def joinSep (sep : String) : List String → String
  | [] => ""
  | [a] => a
  | a :: rest => a ++ sep ++ joinSep sep rest

/-- Embedding of the `filter` string of `server.js` lines 245-249: two
filter stages joined with `;`. -/
def filterComplex (width height : ℕ) : String :=
  joinSep (";")
    ["[0:v]scale=" ++ natToString width ++ ":" ++ natToString height ++
        ":force_original_aspect_ratio=increase," ++
        "crop=" ++ natToString width ++ ":" ++ natToString height ++ ",setsar=1[bg]",
     "[bg][1:v]overlay=0:0:format=auto[v]"]

/-- Embedding of `ffmpegArgs` (`server.js` lines 251-265). -/
def ffmpegArgs (width height : ℕ) (fps durationSec : JSNum)
    (includeAudio : Bool) (bgPath overlayP outP : String) : List String :=
  ["-y",
   "-stream_loop", "-1",
   "-i", bgPath,
   "-i", overlayP,
   "-t", durationSec.jsToString,
   "-r", fps.jsToString,
   "-filter_complex", filterComplex width height,
   "-map", "[v]"] ++
  (if includeAudio then ["-map", "0:a?"] else ["-an"]) ++
  ["-c:v", "libx264",
   "-pix_fmt", "yuv420p",
   "-movflags", "+faststart",
   outP]

/-- Body of the `try` block of the `POST /render/video` handler
(`server.js` lines 199-271): validation, overlay render, overlay write,
ffmpeg composition, output read.  The `bgPath` computation models
`bgVideo.replace("file://", "")`, which on a string validated to start
with `file://` removes that 7-character prefix (its first occurrence). -/
def videoTryBody (w : VideoWorld) (req : VideoRequest) :
    HttpResponse × VideoState :=
  if ¬ templateTruthy req.template then
    ({ status := 400, body := .jsonError ("template is required") none }, {})
  else
    match req.backgroundVideo with
    | none =>
      ({ status := 400,
         body := .jsonError ("assets.backgroundVideo is required for /render/video") none }, {})
    | some bg =>
      if ¬ bg.truthy then
        ({ status := 400,
           body := .jsonError ("assets.backgroundVideo is required for /render/video") none }, {})
      else if ¬ jsStartsWith (valToString bg) ("file://") then
        ({ status := 400,
           body := .jsonError ("assets.backgroundVideo must be a file:// URL for /render/video") none }, {})
      else
        let fps := normalizeInt req.fps (.fin 30)
        let durationSec := normalizeFloat req.durationSec (.fin 6)
        let includeAudio : Bool := req.includeAudio = JSVal.boolean true
        match renderPngBuffer w.page (req.template.getD (""))
            (.num (normalizeDpr req.deviceScaleFactor (.fin 1))) true true with
        | (.error e, rst) =>
          ({ status := 500, body := .jsonError ("RENDER_VIDEO_FAILED") (some e.message) },
           { renderState := rst })
        | (.ok _, rst) =>
          match w.writeOverlay with
          | .error m =>
            ({ status := 500, body := .jsonError ("RENDER_VIDEO_FAILED") (some m) },
             { renderState := rst, overlayWritten := false })
          | .ok _ =>
            let bgPath := (valToString bg).drop 7
            let call : FfmpegCall :=
              { cmd := "ffmpeg",
                args := ffmpegArgs req.width req.height fps durationSec includeAudio
                  bgPath (overlayPathOf w) (outPathOf w),
                timeoutMs := 180000 }
            let outcome := run ("ffmpeg") w.ffmpegBehavior 180000
            match outcome.result with
            | .error m =>
              ({ status := 500, body := .jsonError ("RENDER_VIDEO_FAILED") (some m) },
               { renderState := rst, overlayWritten := true, ffmpegCall := some call })
            | .ok _ =>
              match w.readOutput with
              | .error m =>
                ({ status := 500, body := .jsonError ("RENDER_VIDEO_FAILED") (some m) },
                 { renderState := rst, overlayWritten := true, ffmpegCall := some call })
              | .ok mp4 =>
                ({ status := 200, body := .binary ("video/mp4") mp4 },
                 { renderState := rst, overlayWritten := true, ffmpegCall := some call })

/-- Embedding of the `POST /render/video` handler (`server.js` lines
192-282): `fs.mkdtempSync` runs before the `try` block, so the temporary
directory exists for every request; the `finally` block runs on every path
out of the `try` body and calls `fs.rmSync(tmpDir, { recursive: true,
force: true })` inside a `try`/`catch {}` that swallows its failure. -/
def videoHandler (w : VideoWorld) (req : VideoRequest) :
    HttpResponse × VideoState :=
  let r := videoTryBody w req
  (r.1, { r.2 with tmpDirCreated := true,
                   rmCall := some (true, true),
                   rmSucceeded := w.rmOk })

/-- Machine-readable error code of a JSON error body, if any. -/
def RespBody.errCodeOf : RespBody → Option String
  | .jsonError c _ => some c
  | .binary _ _ => none

/-! Theorems. -/

/-- Claim C1 (status: code_bug).  The claim — page and context are closed
before `renderPngBuffer` returns even when a step fails — matches the spec
but not the code: there is no `finally`, so on a readiness-wait timeout the
call returns with the context and page created and neither `close` ever
called, while the success path does call both.  The concrete failing world
below is a template that never sets its ready flag. -/
theorem renderPngBuffer_close_skipped_on_failure :
    renderPngBuffer
        { readyWait := .error ("page.waitForFunction: Timeout 20000ms exceeded.") }
        ("card") .undef false false =
      (.error { message := "page.waitForFunction: Timeout 20000ms exceeded.",
                code := none },
       { contextCreated := true, contextDpr := some (.fin 1), pageCreated := true,
         screenshotOmitBg := none, pageCloseCalled := false,
         contextCloseCalled := false }) ∧
    (renderPngBuffer {} ("card") .undef false false).2.pageCloseCalled = true ∧
    (renderPngBuffer {} ("card") .undef false false).2.contextCloseCalled = true := by
  decide

/-- Claim C2, counterexample.  A `/render/video` request with no
`assets.backgroundVideo` is answered 400, but a temporary directory IS
created for it: `fs.mkdtempSync` runs before the `try` block and hence
before any validation. -/
theorem videoHandler_tmpdir_created_on_400 :
    (videoHandler {} { template := some ("card") }).1.status = 400 ∧
    (videoHandler {} { template := some ("card") }).2.tmpDirCreated = true := by
  decide

/-- Claim C2 as amended: for every `/render/video` request whose
`assets.backgroundVideo` is absent or does not start with `file://`, the
response is 400; a temporary directory is created before validation, and
the unconditional cleanup deletes it (recursively, forcibly) before the
handler returns. -/
theorem videoHandler_invalid_bg_400 (w : VideoWorld) (req : VideoRequest)
    (hbg : ∀ v, req.backgroundVideo = some v →
      jsStartsWith (valToString v) ("file://") = false) :
    (videoHandler w req).1.status = 400 ∧
    (videoHandler w req).2.tmpDirCreated = true ∧
    (videoHandler w req).2.rmCall = some (true, true) := by
  refine ⟨?_, rfl, rfl⟩
  show (videoTryBody w req).1.status = 400
  unfold videoTryBody
  rcases h : req.backgroundVideo with _ | v
  · by_cases ht : templateTruthy req.template = true <;> simp [ht]
  · have hs := hbg v h
    by_cases ht : templateTruthy req.template = true <;>
      by_cases htr : v.truthy = true <;>
        simp [ht, htr, hs]

/-- Witness for the amended C2 theorem at a concrete request. -/
theorem videoHandler_invalid_bg_400_witness :
    (videoHandler {} { template := some ("card"),
                       backgroundVideo := some (.str ("https://cdn/bg.mp4")) }).1.status = 400 ∧
    (videoHandler {} { template := some ("card"),
                       backgroundVideo := some (.str ("https://cdn/bg.mp4")) }).2.tmpDirCreated = true ∧
    (videoHandler {} { template := some ("card"),
                       backgroundVideo := some (.str ("https://cdn/bg.mp4")) }).2.rmCall =
      some (true, true) :=
  videoHandler_invalid_bg_400 {}
    { template := some ("card"), backgroundVideo := some (.str ("https://cdn/bg.mp4")) }
    (by intro v hv; cases hv; decide)

/-- Claim C7 (status: confirmed).  Every `/render/video` request reaches the
`finally` block, which calls `fs.rmSync` on the request's temporary
directory with `recursive: true, force: true`; a failure of that deletion
is swallowed, i.e. the response does not depend on the deletion outcome. -/
theorem videoHandler_always_removes_tmpdir (w : VideoWorld)
    (req : VideoRequest) (b : Bool) :
    (videoHandler w req).2.rmCall = some (true, true) ∧
    (videoHandler { w with rmOk := b } req).1 = (videoHandler w req).1 := by
  cases w
  exact ⟨rfl, rfl⟩

/-- Claim C8, counterexample.  For a missing template the PNG handler does
answer 404, but the body's machine-readable code is the generic
`RENDER_FAILED` — the same code this handler produces for every other
failure (second conjunct shows a screenshot failure with the identical
code) — and not the internal `TEMPLATE_NOT_FOUND` code, so the body's code
does not identify the template-not-found condition. -/
theorem pngHandler_404_body_code_generic :
    (pngHandler { templateExists := false } { template := some ("missing") }).1 =
      { status := 404,
        body := .jsonError ("RENDER_FAILED")
          (some ("Template not found at /data/templates/missing/index.html")) } ∧
    (pngHandler { screenshot := .error ("screenshot failed") }
        { template := some ("card") }).1.body.errCodeOf = some ("RENDER_FAILED") ∧
    (pngHandler { templateExists := false }
        { template := some ("missing") }).1.body.errCodeOf ≠
      some ("TEMPLATE_NOT_FOUND") := by
  decide

/-- Claim C8 as amended: for every `/render/png` request naming a truthy
template whose entry document does not exist, the response has status 404
(this status, not the body code, is what identifies the condition) and a
JSON body with the generic code `RENDER_FAILED` and a message carrying the
resolved entry-document path. -/
theorem pngHandler_missing_template_404 (w : PageWorld) (req : PngRequest)
    (ht : templateTruthy req.template = true)
    (hmiss : w.templateExists = false) :
    (pngHandler w req).1 =
      { status := 404,
        body := .jsonError ("RENDER_FAILED")
          (some ("Template not found at " ++
            htmlPath (req.template.getD ("")))) } := by
  unfold pngHandler renderPngBuffer
  simp [ht, hmiss]

/-- Witness for the amended C8 theorem at a concrete request. -/
theorem pngHandler_missing_template_404_witness :
    (pngHandler { templateExists := false } { template := some ("missing") }).1 =
      { status := 404,
        body := .jsonError ("RENDER_FAILED")
          (some ("Template not found at /data/templates/missing/index.html")) } :=
  (pngHandler_missing_template_404 { templateExists := false }
    { template := some ("missing") } (by decide) rfl).trans (by decide)

/-- Claim C9 (status: confirmed).  A `/render/video` request with a valid
`file://` background video but a missing template entry document is
answered 500 with body code `RENDER_VIDEO_FAILED` — not 404 — because the
video handler's catch branch never inspects the `TEMPLATE_NOT_FOUND` code
that the PNG handler maps to 404. -/
theorem videoHandler_missing_template_500 (w : VideoWorld)
    (req : VideoRequest) (v : JSVal)
    (ht : templateTruthy req.template = true)
    (hbg : req.backgroundVideo = some v)
    (htr : v.truthy = true)
    (hs : jsStartsWith (valToString v) ("file://") = true)
    (hmiss : w.page.templateExists = false) :
    (videoHandler w req).1 =
      { status := 500,
        body := .jsonError ("RENDER_VIDEO_FAILED")
          (some ("Template not found at " ++
            htmlPath (req.template.getD ("")))) } := by
  show (videoTryBody w req).1 = _
  unfold videoTryBody renderPngBuffer
  simp [ht, hbg, htr, hs, hmiss]

/-- Witness for the C9 theorem at a concrete request. -/
theorem videoHandler_missing_template_500_witness :
    (videoHandler { page := { templateExists := false } }
        { template := some ("card"),
          backgroundVideo := some (.str ("file:///assets/bg.mp4")) }).1 =
      { status := 500,
        body := .jsonError ("RENDER_VIDEO_FAILED")
          (some ("Template not found at /data/templates/card/index.html")) } :=
  (videoHandler_missing_template_500 { page := { templateExists := false } }
    { template := some ("card"),
      backgroundVideo := some (.str ("file:///assets/bg.mp4")) }
    (.str ("file:///assets/bg.mp4")) (by decide) rfl (by decide) (by decide)
    rfl).trans (by decide)

/-- Claim C4 (status: confirmed).  When the timeout timer fires before the
process settles, the process is killed with `SIGKILL` and the call fails
with a timeout error whose message carries the configured bound; and every
ffmpeg invocation recorded by the video handler uses the hard bound of
180000 ms. -/
theorem run_timeout_and_composition_bound (cmd : String) (b : ProcEvent)
    (timeoutMs : ℕ) (w : VideoWorld) (req : VideoRequest) (c : FfmpegCall)
    (hb : ∀ t, b.settleTime = some t → timeoutMs ≤ t)
    (hc : (videoHandler w req).2.ffmpegCall = some c) :
    run cmd b timeoutMs =
      { result := .error (cmd ++ " timed out after " ++ natToString timeoutMs ++ "ms"),
        sigkillSent := true, timerCleared := false } ∧
    c.timeoutMs = 180000 := by
  constructor
  · cases b with
    | closes t exitCode outAcc errAcc =>
      have ht := hb t rfl
      simp [run, ht]
    | spawnErr t msg =>
      have ht := hb t rfl
      simp [run, ht]
    | runsForever => rfl
  · have h0 : (videoTryBody w req).2.ffmpegCall = some c := hc
    have hall : ((videoTryBody w req).2.ffmpegCall.all
        fun k => k.timeoutMs == 180000) = true := by
      simp only [videoTryBody]
      repeat' split
      all_goals rfl
    rw [h0] at hall
    simpa [Option.all] using hall

/-- Witness for the C4 theorem: a process that never exits against a
120000 ms timer, and the ffmpeg call recorded for a concrete valid video
request. -/
theorem run_timeout_and_composition_bound_witness :
    run ("sleepy") ProcEvent.runsForever 120000 =
      { result := .error ("sleepy timed out after 120000ms"),
        sigkillSent := true, timerCleared := false } ∧
    ({ cmd := "ffmpeg",
       args := ffmpegArgs 2160 3840 (.fin 30) (.fin 6) false ("/bg.mp4")
         ("/tmp/render-XXXXXX/overlay-0a1b2c3d4e5f.png")
         ("/tmp/render-XXXXXX/out-0a1b2c3d4e5f.mp4"),
       timeoutMs := 180000 } : FfmpegCall).timeoutMs = 180000 := by
  have h := run_timeout_and_composition_bound ("sleepy") ProcEvent.runsForever
    120000 {}
    { template := some ("card"), backgroundVideo := some (.str ("file:///bg.mp4")) }
    { cmd := "ffmpeg",
      args := ffmpegArgs 2160 3840 (.fin 30) (.fin 6) false ("/bg.mp4")
        ("/tmp/render-XXXXXX/overlay-0a1b2c3d4e5f.png")
        ("/tmp/render-XXXXXX/out-0a1b2c3d4e5f.mp4"),
      timeoutMs := 180000 }
    (by intro t ht; cases ht) (by decide)
  exact ⟨h.1.trans (by decide), h.2⟩

/-- Claim C5 (status: confirmed).  When the process closes before the
timer fires, exit status 0 resolves with the accumulated stdout and
stderr, a non-zero status rejects with a message embedding the exit code
and stderr (stdout when stderr is empty), and the timer is cancelled in
both cases. -/
theorem run_normal_exit (cmd outAcc errAcc : String) (exitCode : ℤ)
    (t timeoutMs : ℕ) (h : t < timeoutMs) :
    (exitCode = 0 → run cmd (.closes t exitCode outAcc errAcc) timeoutMs =
      { result := .ok (outAcc, errAcc), sigkillSent := false,
        timerCleared := true }) ∧
    (exitCode ≠ 0 → run cmd (.closes t exitCode outAcc errAcc) timeoutMs =
      { result := .error (cmd ++ " failed (code " ++ intToString exitCode ++
          "). " ++ (if errAcc = "" then outAcc else errAcc)),
        sigkillSent := false, timerCleared := true }) := by
  have hnot : ¬ timeoutMs ≤ t := Nat.not_le.mpr h
  constructor
  · intro h0
    simp [run, hnot, h0]
  · intro h0
    simp [run, hnot, h0]

/-- Witness for the C5 theorem: a zero exit and a non-zero exit with empty
stderr, both settling before the timer. -/
theorem run_normal_exit_witness :
    run ("ffmpeg") (.closes 1000 0 ("out") ("err")) 120000 =
      { result := .ok (("out"), ("err")), sigkillSent := false,
        timerCleared := true } ∧
    run ("ffmpeg") (.closes 1000 1 ("out") ("")) 120000 =
      { result := .error ("ffmpeg failed (code 1). out"),
        sigkillSent := false, timerCleared := true } :=
  ⟨(run_normal_exit ("ffmpeg") ("out") ("err") 0 1000 120000 (by decide)).1 rfl,
   ((run_normal_exit ("ffmpeg") ("out") ("") 1 1000 120000 (by decide)).2
     (by decide)).trans (by decide)⟩

/-- Helper: `normalizeDpr`'s guard (`!Number.isFinite(n) || n <= 0`) is the
negation of "finite and strictly positive". -/
theorem normalizeDpr_eq_ite (v : JSVal) (fb : JSNum) :
    normalizeDpr v fb =
      if (toNumber v).isFinite ∧ (JSNum.fin 0).jsLt (toNumber v) then toNumber v
      else fb := by
  unfold normalizeDpr
  rcases toNumber v with q | _ | _ | _ <;>
    simp only [JSNum.isFinite, JSNum.jsLe, JSNum.jsLt, Bool.false_eq_true,
      not_false_eq_true, true_or, or_false, false_and, and_true, true_and,
      if_false, ite_eq_ite] <;>
    try rfl
  rcases le_or_lt q 0 with hq | hq
  · simp [hq, not_lt.mpr hq]
  · simp [hq, not_le.mpr hq]

/-- Helper: the shared select-or-fallback shape returns a finite strictly
positive number whenever the fallback is one. -/
theorem selectPos_pos (n : JSNum) (fb : ℚ) (hfb : 0 < fb) :
    ∃ q, (if n.isFinite ∧ (JSNum.fin 0).jsLt n then n else JSNum.fin fb) =
      .fin q ∧ 0 < q := by
  rcases n with q | _ | _ | _
  · rcases lt_or_le 0 q with hq | hq
    · exact ⟨q, by simp [JSNum.isFinite, JSNum.jsLt, hq], hq⟩
    · exact ⟨fb, by simp [JSNum.isFinite, JSNum.jsLt, not_lt.mpr hq], hfb⟩
  · exact ⟨fb, by simp [JSNum.isFinite], hfb⟩
  · exact ⟨fb, by simp [JSNum.isFinite], hfb⟩
  · exact ⟨fb, by simp [JSNum.isFinite], hfb⟩

/-- Claim C3 (status: confirmed).  Each normalizer is total (it is a Lean
function, so no exception can be raised), returns the parsed value exactly
when that parse is finite and strictly positive, returns the fallback
otherwise, and — for a positive fallback — never yields a non-finite or
non-positive result. -/
theorem normalizers_characterization (v : JSVal) (fb : ℚ) (hfb : 0 < fb) :
    (normalizeDpr v (.fin fb) =
      if (toNumber v).isFinite ∧ (JSNum.fin 0).jsLt (toNumber v) then toNumber v
      else .fin fb) ∧
    (normalizeFloat v (.fin fb) =
      if (toNumber v).isFinite ∧ (JSNum.fin 0).jsLt (toNumber v) then toNumber v
      else .fin fb) ∧
    (normalizeInt v (.fin fb) =
      if (jsParseInt v).isFinite ∧ (JSNum.fin 0).jsLt (jsParseInt v) then jsParseInt v
      else .fin fb) ∧
    (∃ q, normalizeDpr v (.fin fb) = .fin q ∧ 0 < q) ∧
    (∃ q, normalizeFloat v (.fin fb) = .fin q ∧ 0 < q) ∧
    (∃ q, normalizeInt v (.fin fb) = .fin q ∧ 0 < q) := by
  refine ⟨normalizeDpr_eq_ite v (.fin fb), rfl, rfl, ?_, ?_, ?_⟩
  · rw [normalizeDpr_eq_ite]
    exact selectPos_pos (toNumber v) fb hfb
  · exact selectPos_pos (toNumber v) fb hfb
  · exact selectPos_pos (jsParseInt v) fb hfb

/-- Witness for the C3 theorem: the string input `"2.5"` with fallback 2;
`Number` parses it to 5/2 (returned by the float/dpr normalizers) and
`parseInt` truncates it to 2. -/
theorem normalizers_characterization_witness :
    (0 : ℚ) < 2 ∧
    normalizeDpr (.str ("2.5")) (.fin 2) = .fin (mkRat 5 2) ∧
    normalizeFloat (.str ("2.5")) (.fin 2) = .fin (mkRat 5 2) ∧
    normalizeInt (.str ("2.5")) (.fin 2) = .fin 2 :=
  ⟨by norm_num,
   ((normalizers_characterization (.str ("2.5")) 2 (by norm_num)).1).trans (by decide),
   ((normalizers_characterization (.str ("2.5")) 2 (by norm_num)).2.1).trans (by decide),
   ((normalizers_characterization (.str ("2.5")) 2 (by norm_num)).2.2.1).trans (by decide)⟩

/-- Helper: string concatenation is associative. -/
theorem strAppend_assoc (a b c : String) : a ++ b ++ c = a ++ (b ++ c) := by
  have h : ∀ (x y : String), x ++ y = String.mk (x.data ++ y.data) := fun _ _ => rfl
  have hd : ∀ (l : List Char), (String.mk l).data = l := fun _ => rfl
  simp only [h, hd]
  exact congrArg String.mk (List.append_assoc a.data b.data c.data)

/-- Helper: the two-stage filter string flattens to the single filter-graph
string of the specification. -/
theorem filterComplex_flat (wd ht : ℕ) :
    filterComplex wd ht =
      "[0:v]scale=" ++ natToString wd ++ ":" ++ natToString ht ++
        ":force_original_aspect_ratio=increase,crop=" ++ natToString wd ++ ":" ++
        natToString ht ++ ",setsar=1[bg];[bg][1:v]overlay=0:0:format=auto[v]" := by
  have hmerge1 : ∀ x : String,
      ":force_original_aspect_ratio=increase," ++ ("crop=" ++ x) =
        ":force_original_aspect_ratio=increase,crop=" ++ x := by
    intro x
    rw [← strAppend_assoc]
    rw [show (":force_original_aspect_ratio=increase," : String) ++ "crop=" =
      ":force_original_aspect_ratio=increase,crop=" from by decide]
  have hmerge2 : (",setsar=1[bg]" : String) ++
      (";" ++ "[bg][1:v]overlay=0:0:format=auto[v]") =
        ",setsar=1[bg];[bg][1:v]overlay=0:0:format=auto[v]" := by decide
  show ("[0:v]scale=" ++ natToString wd ++ ":" ++ natToString ht ++
      ":force_original_aspect_ratio=increase," ++ "crop=" ++ natToString wd ++
      ":" ++ natToString ht ++ ",setsar=1[bg]") ++ ";" ++
      "[bg][1:v]overlay=0:0:format=auto[v]" = _
  simp only [strAppend_assoc]
  rw [hmerge1, hmerge2]

/-- Claim C6 (status: confirmed).  For every valid `/render/video` request
that reaches composition (overlay render and write succeed), the recorded
ffmpeg invocation is exactly: loop flags `-stream_loop -1`, the two inputs,
`-t durationSec`, `-r fps`, the single flat filter-graph string of the
claim, `-map [v]`, then `-map 0:a?` when `includeAudio` is strictly `true`
and `-an` otherwise, `-c:v libx264`, `-pix_fmt yuv420p`,
`-movflags +faststart`, and the output path. -/
theorem videoHandler_ffmpeg_args (w : VideoWorld) (req : VideoRequest)
    (v : JSVal) (png : String) (rst : RenderState)
    (ht : templateTruthy req.template = true)
    (hbg : req.backgroundVideo = some v)
    (htr : v.truthy = true)
    (hs : jsStartsWith (valToString v) ("file://") = true)
    (hrender : renderPngBuffer w.page (req.template.getD (""))
      (.num (normalizeDpr req.deviceScaleFactor (.fin 1))) true true =
        (.ok png, rst))
    (hwrite : w.writeOverlay = .ok ()) :
    (videoHandler w req).2.ffmpegCall = some
      { cmd := "ffmpeg",
        args :=
          ["-y", "-stream_loop", "-1", "-i", (valToString v).drop 7,
           "-i", overlayPathOf w,
           "-t", (normalizeFloat req.durationSec (.fin 6)).jsToString,
           "-r", (normalizeInt req.fps (.fin 30)).jsToString,
           "-filter_complex",
           "[0:v]scale=" ++ natToString req.width ++ ":" ++ natToString req.height ++
             ":force_original_aspect_ratio=increase,crop=" ++ natToString req.width ++
             ":" ++ natToString req.height ++
             ",setsar=1[bg];[bg][1:v]overlay=0:0:format=auto[v]",
           "-map", "[v]"] ++
          (if req.includeAudio = JSVal.boolean true then ["-map", "0:a?"]
           else ["-an"]) ++
          ["-c:v", "libx264", "-pix_fmt", "yuv420p", "-movflags", "+faststart",
           outPathOf w],
        timeoutMs := 180000 } := by
  show (videoTryBody w req).2.ffmpegCall = _
  unfold videoTryBody
  simp only [ht, hbg, htr, hs, hrender, hwrite, not_true_eq_false,
    Bool.true_eq_false, if_false, ite_false]
  rcases hrun : (run ("ffmpeg") w.ffmpegBehavior 180000).result with m | p
  · simp [hrun, ffmpegArgs, filterComplex_flat]
  · rcases hread : w.readOutput with m | mp4 <;>
      simp [hrun, hread, ffmpegArgs, filterComplex_flat]

/-- Witness for the C6 theorem: a concrete request with fps 24, duration 2
and audio off, fully evaluated. -/
theorem videoHandler_ffmpeg_args_witness :
    (videoHandler {}
        { template := some ("card"), width := 1080, height := 1920,
          backgroundVideo := some (.str ("file:///bg.mp4")),
          fps := .num (.fin 24), durationSec := .num (.fin 2) }).2.ffmpegCall =
      some
        { cmd := "ffmpeg",
          args :=
            ["-y", "-stream_loop", "-1", "-i", "/bg.mp4",
             "-i", "/tmp/render-XXXXXX/overlay-0a1b2c3d4e5f.png",
             "-t", "2", "-r", "24", "-filter_complex",
             "[0:v]scale=1080:1920:force_original_aspect_ratio=increase,crop=1080:1920,setsar=1[bg];[bg][1:v]overlay=0:0:format=auto[v]",
             "-map", "[v]", "-an", "-c:v", "libx264", "-pix_fmt", "yuv420p",
             "-movflags", "+faststart",
             "/tmp/render-XXXXXX/out-0a1b2c3d4e5f.mp4"],
          timeoutMs := 180000 } :=
  (videoHandler_ffmpeg_args {}
    { template := some ("card"), width := 1080, height := 1920,
      backgroundVideo := some (.str ("file:///bg.mp4")),
      fps := .num (.fin 24), durationSec := .num (.fin 2) }
    (.str ("file:///bg.mp4")) ("png-bytes")
    { contextCreated := true, contextDpr := some (.fin 1), pageCreated := true,
      screenshotOmitBg := some true, pageCloseCalled := true,
      contextCloseCalled := true }
    (by decide) rfl (by decide) (by decide) (by decide) rfl).trans (by decide)

/-! Helper lemmas about decimal digit rendering and parsing, used to settle
the `parseInt`-truncation claim. -/

/-- Digit characters are recognised by `Char.isDigit`. -/
theorem digitChar_isDigit : ∀ d : ℕ, d < 10 → (Nat.digitChar d).isDigit = true := by
  decide

/-- Helper: reading a digit character back gives the digit. -/
theorem digitChar_sub48 : ∀ d : ℕ, d < 10 → (Nat.digitChar d).toNat - 48 = d := by
  decide

/-- Digit characters are not whitespace. -/
theorem digitChar_not_ws : ∀ d : ℕ, d < 10 → (Nat.digitChar d).isWhitespace = false := by
  decide

/-- Digit characters are not a minus sign. -/
theorem digitChar_ne_dash : ∀ d : ℕ, d < 10 → Nat.digitChar d ≠ '-' := by
  decide

/-- Digit characters are not a plus sign. -/
theorem digitChar_ne_plus : ∀ d : ℕ, d < 10 → Nat.digitChar d ≠ '+' := by
  decide

/-- Every digit produced by `natDigitsAux` is below ten. -/
theorem natDigitsAux_lt (fuel : ℕ) : ∀ (n : ℕ), ∀ d ∈ natDigitsAux fuel n, d < 10 := by
  induction fuel with
  | zero => intro n d hd; simp [natDigitsAux] at hd
  | succ f ih =>
    intro n d hd
    cases n with
    | zero => simp [natDigitsAux] at hd
    | succ m =>
      simp only [natDigitsAux, List.mem_cons] at hd
      rcases hd with hd | hd
      · subst hd; exact Nat.mod_lt _ (by norm_num)
      · exact ih _ d hd

/-- With enough fuel, `natDigitsAux` lists the base-ten digits of `n`,
least significant first. -/
theorem natDigitsAux_ofDigits (fuel : ℕ) : ∀ n : ℕ, n ≤ fuel →
    Nat.ofDigits 10 (natDigitsAux fuel n) = n := by
  induction fuel with
  | zero =>
    intro n hn
    interval_cases n
    simp [natDigitsAux]
  | succ f ih =>
    intro n hn
    cases n with
    | zero => simp [natDigitsAux]
    | succ m =>
      have hdiv : (m + 1) / 10 ≤ f := by
        have := Nat.div_lt_self (Nat.succ_pos m) (by norm_num : 1 < 10)
        omega
      simp only [natDigitsAux, Nat.ofDigits_cons, ih _ hdiv]
      omega

/-- Folding the character-level digit accumulator over mapped digit
characters agrees with the numeric accumulator. -/
theorem foldl_digitChar (l : List ℕ) (hl : ∀ d ∈ l, d < 10) : ∀ acc : ℕ,
    (l.map Nat.digitChar).foldl (fun a c => 10 * a + (c.toNat - 48)) acc =
      l.foldl (fun a d => 10 * a + d) acc := by
  induction l with
  | nil => intro acc; rfl
  | cons d t ih =>
    intro acc
    simp only [List.map_cons, List.foldl_cons,
      digitChar_sub48 d (hl d (by simp))]
    exact ih (fun e he => hl e (by simp [he])) _

/-- Folding the numeric accumulator over a most-significant-first digit
list computes the base-ten value of the list. -/
theorem foldl_base10 (l : List ℕ) : ∀ acc : ℕ,
    l.reverse.foldl (fun a d => 10 * a + d) acc =
      acc * 10 ^ l.length + Nat.ofDigits 10 l := by
  induction l with
  | nil => intro acc; simp
  | cons d t ih =>
    intro acc
    simp only [List.reverse_cons, List.foldl_append, List.foldl_cons,
      List.foldl_nil, ih acc, Nat.ofDigits_cons, List.length_cons]
    ring

/-- Reading the decimal rendering of a natural number back yields the
number. -/
theorem digitsVal_natDigitChars (n : ℕ) : digitsVal (natDigitChars n) = n := by
  unfold natDigitChars
  split
  · rename_i h
    subst h
    decide
  · unfold digitsVal
    rw [show ((natDigitsAux n n).reverse.map Nat.digitChar) =
        ((natDigitsAux n n).map Nat.digitChar).reverse from by
      rw [List.map_reverse]]
    rw [show (((natDigitsAux n n).map Nat.digitChar).reverse) =
        ((natDigitsAux n n).reverse.map Nat.digitChar) from by
      rw [List.map_reverse]]
    rw [foldl_digitChar (natDigitsAux n n).reverse
      (fun d hd => natDigitsAux_lt n n d (List.mem_reverse.mp hd)) 0]
    rw [foldl_base10 (natDigitsAux n n) 0]
    simp [natDigitsAux_ofDigits n n le_rfl]

/-- Every character of the decimal rendering is a digit character. -/
theorem natDigitChars_mem (n : ℕ) :
    ∀ c ∈ natDigitChars n, ∃ d, d < 10 ∧ c = Nat.digitChar d := by
  unfold natDigitChars
  split
  · intro c hc
    simp only [List.mem_singleton] at hc
    exact ⟨0, by norm_num, hc⟩
  · intro c hc
    simp only [List.mem_map] at hc
    obtain ⟨d, hd, rfl⟩ := hc
    exact ⟨d, natDigitsAux_lt n n d (List.mem_reverse.mp hd), rfl⟩

/-- The decimal rendering of a natural number is never empty. -/
theorem natDigitChars_ne_nil (n : ℕ) : natDigitChars n ≠ [] := by
  unfold natDigitChars
  split
  · simp
  · rename_i h
    obtain ⟨m, rfl⟩ := Nat.exists_eq_succ_of_ne_zero h
    simp [natDigitsAux]

/-- Helper: `takeWhile` keeps exactly an all-satisfying block up to the
first failing element. -/
theorem takeWhile_append_all {p : Char → Bool} :
    ∀ (xs : List Char), (∀ c ∈ xs, p c = true) →
    ∀ (y : Char), p y = false → ∀ (ys : List Char),
      ((xs ++ y :: ys).takeWhile p) = xs := by
  intro xs
  induction xs with
  | nil =>
    intro _ y hy ys
    simp [List.takeWhile_cons, hy]
  | cons x t ih =>
    intro hall y hy ys
    simp only [List.cons_append, List.takeWhile_cons, hall x (by simp)]
    simp [ih (fun c hc => hall c (by simp [hc])) y hy ys]

/-- Parsing a character list that starts with the decimal rendering of `n`
followed by a decimal point yields `n`: `parseInt` truncates at the dot. -/
theorem parseIntChars_natDigitChars_dot (n : ℕ) (rest : List Char) :
    parseIntChars (natDigitChars n ++ '.' :: rest) = .fin ((n : ℕ) : ℚ) := by
  obtain ⟨c, t, hct⟩ : ∃ c t, natDigitChars n = c :: t := by
    cases h : natDigitChars n with
    | nil => exact absurd h (natDigitChars_ne_nil n)
    | cons c t => exact ⟨c, t, rfl⟩
  obtain ⟨d, hd10, hcd⟩ := natDigitChars_mem n c (by rw [hct]; simp)
  have hdigit : ∀ c' ∈ natDigitChars n, Char.isDigit c' = true := by
    intro c' hc'
    obtain ⟨e, he, rfl⟩ := natDigitChars_mem n c' hc'
    exact digitChar_isDigit e he
  have hcw : c.isWhitespace = false := hcd ▸ digitChar_not_ws d hd10
  have hstep : parseIntChars (natDigitChars n ++ '.' :: rest) =
      (if c = '-' then (parseIntCore (t ++ '.' :: rest)).neg
       else if c = '+' then parseIntCore (t ++ '.' :: rest)
       else parseIntCore (c :: (t ++ '.' :: rest))) := by
    unfold parseIntChars
    rw [hct, List.cons_append, List.dropWhile_cons, if_neg (by simp [hcw])]
  rw [hstep, if_neg (hcd ▸ digitChar_ne_dash d hd10),
    if_neg (hcd ▸ digitChar_ne_plus d hd10)]
  unfold parseIntCore
  rw [← List.cons_append, ← hct,
    takeWhile_append_all (natDigitChars n) hdigit '.' (by decide) rest]
  rw [if_neg (by simp [natDigitChars_ne_nil n])]
  rw [digitsVal_natDigitChars]

/-- Helper: for nonnegative rationals the rendered integer part is the
floor. -/
theorem intPart_eq_floor (q : ℚ) (hq : 0 ≤ q) :
    ((q.num.toNat / q.den : ℕ) : ℤ) = ⌊q⌋ := by
  rw [Rat.floor_def, Int.natCast_div, Int.toNat_of_nonneg (Rat.num_nonneg.mpr hq)]

/-- Helper: within the plain-decimal notation range, `parseInt` applied to
a nonnegative non-integer rational reads exactly the digits before the
decimal point. -/
theorem jsParseInt_posRat (q : ℚ) (hq : ¬ q < 0)
    (hL : ¬ 10 ^ 21 * q.den ≤ q.num.toNat)
    (hS : ¬ (q.num.toNat ≠ 0 ∧ q.num.toNat * 10 ^ 6 < q.den))
    (hr : q.num.toNat % q.den ≠ 0) :
    jsParseInt (.num (.fin q)) = .fin ((q.num.toNat / q.den : ℕ) : ℚ) := by
  show parseIntChars (ratToDecimalChars q) = _
  unfold ratToDecimalChars
  rw [if_neg hq]
  unfold ratToDecimalCharsNonneg
  rw [if_neg hL, if_neg hS]
  show parseIntChars
      (if q.num.toNat % q.den = 0 then natDigitChars (q.num.toNat / q.den)
       else natDigitChars (q.num.toNat / q.den) ++
         '.' :: fracDigitChars q.den 40 (q.num.toNat % q.den)) = _
  rw [if_neg hr]
  exact parseIntChars_natDigitChars_dot _ _

/-- Helper: numbers are smaller than ten to the power of their digit
count. -/
theorem natDigitsAux_len (fuel : ℕ) : ∀ n : ℕ, n ≤ fuel →
    n < 10 ^ (natDigitsAux fuel n).length := by
  induction fuel with
  | zero =>
    intro n hn
    interval_cases n
    simp [natDigitsAux]
  | succ f ih =>
    intro n hn
    cases n with
    | zero => simp [natDigitsAux]
    | succ m =>
      have hdiv : (m + 1) / 10 ≤ f := by
        have := Nat.div_lt_self (Nat.succ_pos m) (by norm_num : 1 < 10)
        omega
      have hrec := ih _ hdiv
      simp only [natDigitsAux, List.length_cons]
      rw [pow_succ]
      omega

/-- Specification of `leastPow`: given enough fuel it returns the least
shift that lifts `num / den` to at least one. -/
theorem leastPow_spec (fuel : ℕ) : ∀ num den : ℕ,
    den ≤ num * 10 ^ fuel →
    den ≤ num * 10 ^ (leastPow num den fuel) ∧
    (∀ j, j < leastPow num den fuel → num * 10 ^ j < den) := by
  induction fuel with
  | zero =>
    intro num den h
    refine ⟨by simpa [leastPow] using h, ?_⟩
    intro j hj
    simp [leastPow] at hj
  | succ f ih =>
    intro num den h
    by_cases hc : den ≤ num
    · refine ⟨by simp [leastPow, hc], ?_⟩
      intro j hj
      simp [leastPow, hc] at hj
    · have h' : den ≤ num * 10 * 10 ^ f := by
        calc den ≤ num * (10 ^ f * 10) := by rw [← pow_succ]; exact h
          _ = num * 10 * 10 ^ f := by ring
      obtain ⟨h1, h2⟩ := ih (num * 10) den h'
      simp only [leastPow, hc, if_false]
      constructor
      · calc den ≤ num * 10 * 10 ^ (leastPow (num * 10) den f) := h1
          _ = num * 10 ^ (leastPow (num * 10) den f + 1) := by ring
      · intro j hj
        cases j with
        | zero =>
          simp only [pow_zero, mul_one]
          omega
        | succ j' =>
          have hj' : j' < leastPow (num * 10) den f := by omega
          have hlt := h2 j' hj'
          calc num * 10 ^ (j' + 1) = num * 10 * 10 ^ j' := by ring
            _ < den := hlt

/-- Bounds on the leading significant digit extracted by the exponential
rendering for positive values below `1e-6`. -/
theorem leastPow_d1_bounds (num den : ℕ) (hnum : num ≠ 0) (hden : 0 < den)
    (hS : num * 10 ^ 6 < den) :
    1 ≤ num * 10 ^ (leastPow num den ((natDigitsAux den den).length + 1)) / den ∧
    num * 10 ^ (leastPow num den ((natDigitsAux den den).length + 1)) / den < 10 := by
  have hfuel : den ≤ num * 10 ^ ((natDigitsAux den den).length + 1) := by
    have hd : den < 10 ^ (natDigitsAux den den).length := natDigitsAux_len den den le_rfl
    have h1 : (1 : ℕ) ≤ num := Nat.one_le_iff_ne_zero.mpr hnum
    calc den ≤ 10 ^ (natDigitsAux den den).length := le_of_lt hd
      _ ≤ 10 ^ ((natDigitsAux den den).length + 1) :=
        Nat.pow_le_pow_right (by norm_num) (by omega)
      _ = 1 * 10 ^ ((natDigitsAux den den).length + 1) := (one_mul _).symm
      _ ≤ num * 10 ^ ((natDigitsAux den den).length + 1) :=
        Nat.mul_le_mul_right _ h1
  obtain ⟨hup, hmin⟩ := leastPow_spec _ num den hfuel
  have hepos : 0 < leastPow num den ((natDigitsAux den den).length + 1) := by
    rcases Nat.eq_zero_or_pos (leastPow num den ((natDigitsAux den den).length + 1))
      with h0 | h
    · exfalso
      rw [h0, pow_zero, mul_one] at hup
      have : num ≤ num * 10 ^ 6 := Nat.le_mul_of_pos_right _ (by norm_num)
      omega
    · exact h
  refine ⟨(Nat.one_le_div_iff hden).mpr hup, ?_⟩
  obtain ⟨e', he'⟩ := Nat.exists_eq_succ_of_ne_zero (Nat.pos_iff_ne_zero.mp hepos)
  have hlt : num * 10 ^ e' < den := hmin e' (by omega)
  rw [Nat.div_lt_iff_lt_mul hden, he']
  have hex : num * 10 ^ (e' + 1) = num * 10 ^ e' * 10 := by ring
  simp only [Nat.succ_eq_add_one]
  omega

/-- Parsing a character list headed by one digit character followed by a
non-digit yields that digit. -/
theorem parseIntChars_digitChar_cons (d : ℕ) (hd : d < 10) (y : Char)
    (hy : y.isDigit = false) (ys : List Char) :
    parseIntChars (Nat.digitChar d :: y :: ys) = .fin ((d : ℕ) : ℚ) := by
  have hstep : parseIntChars (Nat.digitChar d :: y :: ys) =
      (if Nat.digitChar d = '-' then (parseIntCore (y :: ys)).neg
       else if Nat.digitChar d = '+' then parseIntCore (y :: ys)
       else parseIntCore (Nat.digitChar d :: y :: ys)) := by
    unfold parseIntChars
    rw [List.dropWhile_cons, if_neg (by simp [digitChar_not_ws d hd])]
  rw [hstep, if_neg (digitChar_ne_dash d hd), if_neg (digitChar_ne_plus d hd)]
  unfold parseIntCore
  rw [show (Nat.digitChar d :: y :: ys) = [Nat.digitChar d] ++ y :: ys from rfl,
    takeWhile_append_all [Nat.digitChar d]
      (by intro c hc; simp only [List.mem_singleton] at hc; subst hc;
          exact digitChar_isDigit d hd) y hy ys]
  simp [digitsVal, digitChar_sub48 d hd]

/-- Helper: `parseInt` applied to a positive rational below `1e-6` reads
the single leading mantissa digit of the exponential rendering. -/
theorem jsParseInt_smallExp (q : ℚ) (h0 : 0 < q)
    (hS : q.num.toNat * 10 ^ 6 < q.den) :
    jsParseInt (.num (.fin q)) =
      .fin ((q.num.toNat * 10 ^ (leastPow q.num.toNat q.den
        ((natDigitsAux q.den q.den).length + 1)) / q.den : ℕ) : ℚ) := by
  have hnum : q.num.toNat ≠ 0 := by
    have := Rat.num_pos.mpr h0
    omega
  have hq : ¬ q < 0 := not_lt.mpr (le_of_lt h0)
  have hden : 0 < q.den := Nat.pos_of_ne_zero q.den_nz
  have hL : ¬ 10 ^ 21 * q.den ≤ q.num.toNat := by
    have h1 : q.num.toNat ≤ q.num.toNat * 10 ^ 6 :=
      Nat.le_mul_of_pos_right _ (by norm_num)
    have h2 : q.den ≤ 10 ^ 21 * q.den := Nat.le_mul_of_pos_left _ (by norm_num)
    omega
  obtain ⟨hd1, hd9⟩ := leastPow_d1_bounds q.num.toNat q.den hnum hden hS
  show parseIntChars (ratToDecimalChars q) = _
  unfold ratToDecimalChars
  rw [if_neg hq]
  unfold ratToDecimalCharsNonneg
  rw [if_neg hL, if_pos ⟨hnum, hS⟩]
  simp only [smallExpChars]
  by_cases hrr : q.num.toNat * 10 ^ (leastPow q.num.toNat q.den
      ((natDigitsAux q.den q.den).length + 1)) % q.den = 0
  · rw [if_pos hrr, List.nil_append]
    exact parseIntChars_digitChar_cons _ hd9 'e' (by decide) _
  · rw [if_neg hrr, List.cons_append]
    exact parseIntChars_digitChar_cons _ hd9 '.' (by decide) _

/-- Claim C10, counterexample.  The claim asserts that every fractional
input strictly between 0 and 1 truncates to 0 and so yields the fallback;
this fails below `1e-6`: JavaScript renders `1e-7` in exponential notation
(`String(1e-7)` is `"1e-7"`), `parseInt` reads the mantissa digit 1, which
passes the positivity guard, so `normalizeInt(1e-7, 30)` returns 1 — not
the fallback 30. -/
theorem normalizeInt_exp_notation_counterexample :
    (JSNum.fin (⟨1, 10000000, by decide, by decide⟩ : ℚ)).jsToString = "1e-7" ∧
    normalizeInt (.num (.fin (⟨1, 10000000, by decide, by decide⟩ : ℚ)))
      (.fin 30) = .fin 1 ∧
    JSNum.fin 1 ≠ JSNum.fin 30 := by
  decide

/-- Claim C10 as amended (status: corrected).  `normalizeInt` parses with
`parseInt` semantics over the number's string rendering.  For an input at
least 1 with a fractional part (and below `1e21`, the exponential-notation
threshold — every double with a fractional part is far below it), the
result is the integer truncation (floor), not the input.  For a fractional
input in `[1e-6, 1)` the plain decimal rendering truncates to 0, which the
positivity guard rejects, so the fallback is returned.  For a positive
input below `1e-6` the exponential rendering makes `parseInt` read the
leading mantissa digit, a value in 1..9 that passes the guard and is
returned instead of the fallback. -/
theorem normalizeInt_truncation (q : ℚ) (fb : JSNum) :
    (1 ≤ q → q.den ≠ 1 → q.num.toNat < 10 ^ 21 * q.den →
      normalizeInt (.num (.fin q)) fb = .fin ((⌊q⌋ : ℤ) : ℚ)) ∧
    (0 < q → q < 1 → q.den ≤ q.num.toNat * 10 ^ 6 →
      normalizeInt (.num (.fin q)) fb = fb) ∧
    (0 < q → q.num.toNat * 10 ^ 6 < q.den →
      ∃ d : ℕ, 1 ≤ d ∧ d < 10 ∧
        normalizeInt (.num (.fin q)) fb = .fin ((d : ℕ) : ℚ)) := by
  refine ⟨?_, ?_, ?_⟩
  · intro h1 hden hbound
    have hq0 : 0 ≤ q := le_trans zero_le_one h1
    have hnlt : ¬ q < 0 := not_lt.mpr hq0
    have hnum0 : 0 ≤ q.num := Rat.num_nonneg.mpr hq0
    have hr : q.num.toNat % q.den ≠ 0 := by
      intro h0
      apply hden
      refine Nat.Coprime.eq_one_of_dvd q.reduced.symm ?_
      have hd : q.den ∣ q.num.toNat := Nat.dvd_of_mod_eq_zero h0
      have habs : q.num.toNat = q.num.natAbs := by omega
      rwa [habs] at hd
    have hfl : 1 ≤ ⌊q⌋ := by
      rw [Int.le_floor]
      exact_mod_cast h1
    have hipz := intPart_eq_floor q hq0
    have hip : 1 ≤ q.num.toNat / q.den := by omega
    have hdle : q.den ≤ q.num.toNat :=
      (Nat.one_le_div_iff (Nat.pos_of_ne_zero q.den_nz)).mp hip
    have hL : ¬ 10 ^ 21 * q.den ≤ q.num.toNat := not_le.mpr hbound
    have hS : ¬ (q.num.toNat ≠ 0 ∧ q.num.toNat * 10 ^ 6 < q.den) := by
      have : q.num.toNat ≤ q.num.toNat * 10 ^ 6 :=
        Nat.le_mul_of_pos_right _ (by norm_num)
      omega
    have hparse := jsParseInt_posRat q hnlt hL hS hr
    show (if (jsParseInt (.num (.fin q))).isFinite ∧
        (JSNum.fin 0).jsLt (jsParseInt (.num (.fin q)))
      then jsParseInt (.num (.fin q)) else fb) = _
    rw [hparse]
    have hpos : (0 : ℚ) < ((q.num.toNat / q.den : ℕ) : ℚ) := by
      exact_mod_cast lt_of_lt_of_le Nat.zero_lt_one hip
    rw [if_pos ⟨rfl, by simpa [JSNum.jsLt] using hpos⟩]
    congr 1
    rw [← hipz]
    push_cast
    rfl
  · intro h0 h1 hge
    have hq0 : 0 ≤ q := le_of_lt h0
    have hnlt : ¬ q < 0 := not_lt.mpr hq0
    have hnum : 0 < q.num := Rat.num_pos.mpr h0
    have hlt : q.num < q.den := Rat.lt_one_iff_num_lt_denom.mp h1
    have hlt' : q.num.toNat < q.den := by omega
    have hr : q.num.toNat % q.den ≠ 0 := by
      rw [Nat.mod_eq_of_lt hlt']
      omega
    have hL : ¬ 10 ^ 21 * q.den ≤ q.num.toNat := by
      have : q.den ≤ 10 ^ 21 * q.den := Nat.le_mul_of_pos_left _ (by norm_num)
      omega
    have hS : ¬ (q.num.toNat ≠ 0 ∧ q.num.toNat * 10 ^ 6 < q.den) := by omega
    have hparse := jsParseInt_posRat q hnlt hL hS hr
    have hip : q.num.toNat / q.den = 0 := Nat.div_eq_of_lt hlt'
    show (if (jsParseInt (.num (.fin q))).isFinite ∧
        (JSNum.fin 0).jsLt (jsParseInt (.num (.fin q)))
      then jsParseInt (.num (.fin q)) else fb) = _
    rw [hparse, hip]
    rw [if_neg (by simp [JSNum.jsLt])]
  · intro h0 hS
    have hnum : q.num.toNat ≠ 0 := by
      have := Rat.num_pos.mpr h0
      omega
    have hden : 0 < q.den := Nat.pos_of_ne_zero q.den_nz
    have hparse := jsParseInt_smallExp q h0 hS
    obtain ⟨hd1, hd9⟩ := leastPow_d1_bounds q.num.toNat q.den hnum hden hS
    refine ⟨_, hd1, hd9, ?_⟩
    show (if (jsParseInt (.num (.fin q))).isFinite ∧
        (JSNum.fin 0).jsLt (jsParseInt (.num (.fin q)))
      then jsParseInt (.num (.fin q)) else fb) = _
    rw [hparse]
    have hpos : (0 : ℚ) < ((q.num.toNat * 10 ^ (leastPow q.num.toNat q.den
        ((natDigitsAux q.den q.den).length + 1)) / q.den : ℕ) : ℚ) := by
      exact_mod_cast Nat.lt_of_lt_of_le Nat.zero_lt_one hd1
    rw [if_pos ⟨rfl, by simpa [JSNum.jsLt] using hpos⟩]

/-- Witness for the amended C10 theorem at the concrete inputs 2.7
(truncated to 2) and 1/2 (rendered "0.5", truncated to 0, hence the
fallback 30). -/
theorem normalizeInt_truncation_witness :
    normalizeInt (.num (.fin (⟨27, 10, by decide, by decide⟩ : ℚ))) (.fin 30) =
      .fin 2 ∧
    normalizeInt (.num (.fin (⟨1, 2, by decide, by decide⟩ : ℚ))) (.fin 30) =
      .fin 30 :=
  ⟨((normalizeInt_truncation (⟨27, 10, by decide, by decide⟩ : ℚ) (.fin 30)).1
      (by decide) (by decide) (by decide)).trans (by decide),
   ((normalizeInt_truncation (⟨1, 2, by decide, by decide⟩ : ℚ) (.fin 30)).2.1
      (by decide) (by decide) (by decide))⟩

end Renderer
